import Mathlib

/-!
Verification development for the nestjs-microservice-client-generator
repository.  The build half (src/generate-patterns-from-decorators.ts)
scans controller modules for annotated handler methods, resolves their
routing-key values, validates naming conventions and emits a nested
routing-key map.  The runtime half (src/client.service.ts) consumes that
map and builds a dynamic client proxy with connection supervision.

The definitions below are a shallow embedding of those two files.
-/

namespace ClientGen

/-! ## JavaScript literal values and source-level types

`Value` models the JSON-representable literal values the generator
manipulates.  `Ty` models the view of a ts-morph `Type` that
`valueFromType` inspects: `lit` is a type whose `getLiteralValue()` is
defined, `fixedTuple` is a tuple type without the `ElementFlags.Variable`
flag, `objType` is any other object type seen through `getProperties()`
(each property paired with its declared type), and `plain` is a
non-literal, non-object type (for example `string`), carrying whether its
flags include `TypeFlags.StringLike`. -/

inductive Value where
  | str (s : String)
  | num (n : Int)
  | bool (b : Bool)
  | arr (elems : List Value)
  | obj (fields : List (String × Value))

inductive Ty where
  | lit (v : Value)
  | fixedTuple (elems : List Ty)
  | objType (props : List (String × Ty))
  | plain (stringLike : Bool)

def Ty.stringLike : Ty → Bool
  | .lit (.str _) => true
  | .plain sl => sl
  | _ => false

mutual

/-- Embedding of `valueFromType` (generate-patterns-from-decorators.ts,
lines 51-71): a literal type yields its literal value; a fixed-length
tuple type yields the element-wise collapse of its members; any other
object type yields the field-wise collapse of its declared properties; an
exception thrown inside the element- or property-wise `map` propagates,
modelled by `Except`. -/
def valueFromType : Ty → Except String Value
  | .lit v => .ok v
  | .fixedTuple es =>
    match valueFromTypeList es with
    | .error e => .error e
    | .ok vs => .ok (.arr vs)
  | .objType ps =>
    match valueFromTypeProps ps with
    | .error e => .error e
    | .ok fs => .ok (.obj fs)
  | .plain _ => .error ("Cant extract value from type")

def valueFromTypeList : List Ty → Except String (List Value)
  | [] => .ok []
  | t :: ts =>
    match valueFromType t with
    | .error e => .error e
    | .ok v =>
      match valueFromTypeList ts with
      | .error e => .error e
      | .ok vs => .ok (v :: vs)

def valueFromTypeProps : List (String × Ty) → Except String (List (String × Value))
  | [] => .ok []
  | (n, t) :: ps =>
    match valueFromType t with
    | .error e => .error e
    | .ok v =>
      match valueFromTypeProps ps with
      | .error e => .error e
      | .ok fs => .ok ((n, v) :: fs)

end

mutual

/-- `JSON.stringify` on the values above (strings in the claims need no
escaping). -/
def jsonStringify : Value → String
  | .str s => "\"" ++ s ++ "\""
  | .num n => toString n
  | .bool b => if b then ("true") else ("false")
  | .arr es => "[" ++ jsonStringifyList es ++ "]"
  | .obj fs => "\x7b" ++ jsonStringifyProps fs ++ "\x7d"

def jsonStringifyList : List Value → String
  | [] => ""
  | [v] => jsonStringify v
  | v :: vs => jsonStringify v ++ "," ++ jsonStringifyList vs

def jsonStringifyProps : List (String × Value) → String
  | [] => ""
  | [(n, v)] => "\"" ++ n ++ "\":" ++ jsonStringify v
  | (n, v) :: fs => "\"" ++ n ++ "\":" ++ jsonStringify v ++ "," ++ jsonStringifyProps fs

end

/-- `R.isEmpty` from remeda, as applied to the evaluated pattern value
(line 187): an empty string, array or object is empty; other defined
values are not. -/
def Value.isEmptyJs : Value → Bool
  | .str s => s.isEmpty
  | .arr es => es.isEmpty
  | .obj fs => fs.isEmpty
  | .num _ => false
  | .bool _ => false

/-! ## String helpers

`strStartsWith` and `strEndsWith` embed `String.startsWith` and
`String.endsWith` through the character lists of the strings.
`capitalizeStr` and `uncapitalizeStr` (remeda `capitalize` and
`uncapitalize`) change the first character only.  `toCamelCase` (remeda)
splits on non-alphanumeric separators and joins with the first word
uncapitalized and the rest capitalized (splitting on case boundaries is
not needed for the kebab-case captures handled here). -/

def strStartsWith (s p : String) : Bool :=
  p.data.isPrefixOf s.data

def strEndsWith (s p : String) : Bool :=
  p.data.isSuffixOf s.data

def capitalizeStr (s : String) : String :=
  match s.data with
  | [] => ""
  | c :: cs => String.mk (c.toUpper :: cs)

def uncapitalizeStr (s : String) : String :=
  match s.data with
  | [] => ""
  | c :: cs => String.mk (c.toLower :: cs)

def camelWordsAux : List Char → List Char → List String
  | [], acc => if acc.isEmpty then [] else [String.mk acc.reverse]
  | c :: cs, acc =>
    if c.isAlphanum then camelWordsAux cs (c :: acc)
    else if acc.isEmpty then camelWordsAux cs []
    else String.mk acc.reverse :: camelWordsAux cs []

def camelWords (s : String) : List String :=
  camelWordsAux s.data []

def lowerStr (s : String) : String :=
  String.mk (s.data.map Char.toLower)

def toCamelCase (s : String) : String :=
  match camelWords s with
  | [] => ""
  | w :: ws =>
    String.join (lowerStr w :: ws.map (fun x => capitalizeStr (lowerStr x)))

/-! ## The event-pattern regular expression

`eventPatternRe` (lines 113-115) is
`^(quote)<kebab>\.(?<name>[\w-]+)\1$` where `quote` is a single, double
or backtick quote.  `matchEventPattern` returns the `name` capture when
the pattern source text matches, and `none` otherwise.  Note the tested
string is the pattern SOURCE text, quotes included. -/

def isQuoteChar (c : Char) : Bool :=
  c = '\"' || c = Char.ofNat 39 || c = Char.ofNat 96

def isWordOrHyphen (c : Char) : Bool :=
  c.isAlphanum || c = '_' || c = '-'

def matchEventPattern (kebab : String) (pat : String) : Option String :=
  match pat.data with
  | [] => none
  | q :: rest =>
    if isQuoteChar q && kebab.data.isPrefixOf rest then
      match rest.drop kebab.data.length with
      | '.' :: tail =>
        match tail.reverse with
        | [] => none
        | last :: revName =>
          if last = q && !revName.isEmpty && revName.all isWordOrHyphen then
            some (String.mk revName.reverse)
          else none
      | _ => none
    else none

/-! ## Handler metadata extraction (main, lines 106-239)

A `MethodDecl` is the source-level view of one controller method: its
names, whether it carries a `MessagePattern`/`EventPattern` decorator and
which, its routing-key argument (source text, inline-literal flag, the
result of evaluating the inline text, and its static type) and, per
declared parameter, whether it carries a `Payload`/`Body` decorator.
`loc` stands for the `controllerPath:line:column` string built by
`getLineAndCol`. -/

structure PatternArg where
  isInline : Bool
  text : String
  inlineValue : Option Value
  ty : Ty

structure MethodDecl where
  className : String
  methodName : String
  loc : String
  hasPatternDecorator : Bool
  isEventHandler : Bool
  patternArg : PatternArg
  paramDecorated : List Bool

/-- The diagnostics printed with `console.error`; each constructor is one
of the `console.error` sites of generate-patterns-from-decorators.ts. -/
inductive Diagnostic where
  | eventPatternNotString (methodName loc : String)
  | reservedEmitName (methodName loc : String)
  | patternNotExtractable (methodName loc : String)
  | eventPatternShape (pat loc : String)
  | duplicateMethodNames (serviceName : String) (entries : List (String × String))
  | duplicateServiceNames (paths : List String)
deriving DecidableEq, Repr

/-- The `MethodInfo` record the extractor accumulates (lines 30-40 and
224-234); the `method` node handle is dropped and `loc` keeps the
location string derived from it. -/
structure MethodInfo where
  className : String
  methodName : String
  loc : String
  pattern : String
  paramIndex : Int
  serviceName : String
  isEventHandler : Bool
  eventName : Option String
deriving DecidableEq, Repr

/-- `parameters.findIndex` over the Payload/Body decorator test
(lines 211-213): the index of the first decorated parameter, `-1` when
none. -/
def findDecoratedIndex (ps : List Bool) : Int :=
  match ps.findIdx? (fun b => b) with
  | some i => (i : Int)
  | none => -1

/-- `paramIndex` (lines 215-218): the decorated parameter index when one
exists, else `0` when the method has parameters, else `-1`. -/
def paramIndexOf (ps : List Bool) : Int :=
  if ps.length > 0 ∧ findDecoratedIndex ps = -1 then 0 else findDecoratedIndex ps

/-- Pattern resolution (lines 174-198): an inline literal expression
contributes its source text (and its evaluated value for the emptiness
check); otherwise the static type is collapsed with `valueFromType` and
serialized with `JSON.stringify` (evaluating that serialization yields
the collapsed value back).  `none` is the `catch` branch: extraction or
evaluation threw, or the evaluated value is empty per `R.isEmpty`. -/
def resolvedPattern (arg : PatternArg) : Option (String × Value) :=
  if arg.isInline then
    match arg.inlineValue with
    | none => none
    | some v => if v.isEmptyJs then none else some (arg.text, v)
  else
    match valueFromType arg.ty with
    | .error _ => none
    | .ok v => if v.isEmptyJs then none else some (jsonStringify v, v)

/-- Per-method extraction (lines 128-234), in source order: methods
without a pattern decorator are skipped; an event handler whose
routing-key argument type is not string-like is rejected; a message
handler whose name starts with `emit` is rejected; an unresolvable or
empty routing key is rejected; an event routing key not matching
`eventPatternRe` is rejected.  Each rejection is one `console.error`
plus `errorFlag = true` plus an early `return`, modelled as `Except`. -/
def processMethod (serviceName kebab : String) (m : MethodDecl) :
    Except Diagnostic (Option MethodInfo) :=
  if !m.hasPatternDecorator then .ok none
  else if m.isEventHandler && !m.patternArg.ty.stringLike then
    .error (.eventPatternNotString m.methodName m.loc)
  else if !m.isEventHandler && strStartsWith m.methodName ("emit") then
    .error (.reservedEmitName m.methodName m.loc)
  else
    match resolvedPattern m.patternArg with
    | none => .error (.patternNotExtractable m.methodName m.loc)
    | some (pat, _) =>
      if m.isEventHandler && (matchEventPattern kebab pat).isNone then
        .error (.eventPatternShape pat m.loc)
      else
        .ok (some {
          className := m.className
          methodName := m.methodName
          loc := m.loc
          pattern := pat
          paramIndex := paramIndexOf m.paramDecorated
          serviceName := serviceName
          isEventHandler := m.isEventHandler
          eventName :=
            if m.isEventHandler then (matchEventPattern kebab pat).map toCamelCase
            else none })

/-- The module-wide mutable state of the generator run: the printed
diagnostics and the `errorFlag` variable (line 42). -/
structure BuildState where
  diags : List Diagnostic
  errorFlag : Bool
deriving DecidableEq, Repr

/-- One `console.error(d); errorFlag = true;` site. -/
def report (st : BuildState) (d : Diagnostic) : BuildState :=
  ⟨st.diags ++ [d], true⟩

def reportAll (st : BuildState) (ds : List Diagnostic) : BuildState :=
  ds.foldl report st

/-- The per-module scan over decorated methods (the nested `map` of
lines 117-239): failures report a diagnostic and contribute no record;
scanning continues with the remaining methods. -/
def scanMethods (serviceName kebab : String) :
    BuildState → List MethodDecl → BuildState × List MethodInfo
  | st, [] => (st, [])
  | st, m :: ms =>
    match processMethod serviceName kebab m with
    | .ok none => scanMethods serviceName kebab st ms
    | .ok (some info) =>
      let r := scanMethods serviceName kebab st ms
      (r.1, info :: r.2)
    | .error d => scanMethods serviceName kebab (report st d) ms

/-- `R.groupBy` (keyed by a string), preserving first-occurrence key
order and element order inside each group. -/
def groupByKey {α : Type} (key : α → String) : List α → List (String × List α)
  | [] => []
  | x :: xs =>
    (key x, x :: xs.filter (fun y => key y = key x)) ::
      groupByKey key (xs.filter (fun y => key y ≠ key x))
termination_by l => l.length
decreasing_by
  exact Nat.lt_succ_of_le (List.length_filter_le _ _)

/-- The groups kept by the duplicate checks (lines 280-285 and 369-374):
those with more than one member. -/
def duplicateGroups {α : Type} (key : α → String) (xs : List α) : List (List α) :=
  ((groupByKey key xs).map Prod.snd).filter (fun g => g.length > 1)

/-- One duplicate-method-name diagnostic (lines 287-301), citing every
member of the group by method name and source location. -/
def dupMethodDiag (serviceName : String) (g : List MethodInfo) : Diagnostic :=
  .duplicateMethodNames serviceName (g.map (fun i => (i.methodName, i.loc)))

/-- One service module as the scan sees it: `serviceName` is
`R.capitalize(R.toCamelCase(basename))` and `kebab` its kebab-case form
(lines 110-112); both are carried here as data. -/
structure ServiceModuleDecl where
  modulePath : String
  serviceName : String
  kebab : String
  methods : List MethodDecl

/-- `path.basename`: the final path segment. -/
def basenameOf (p : String) : String :=
  String.mk ((p.data.reverse.takeWhile (fun c => c ≠ '/')).reverse)

/-- One iteration of the module loop (lines 106-327): scan the module's
methods; when no record survives, `continue` (line 241) skips the
duplicate-method check and emits nothing; otherwise report a diagnostic
per duplicate method-name group and keep the records for the pattern
map. -/
def runModule (st : BuildState) (m : ServiceModuleDecl) :
    BuildState × Option (String × List MethodInfo) :=
  if (scanMethods m.serviceName m.kebab st m.methods).2.isEmpty then
    ((scanMethods m.serviceName m.kebab st m.methods).1, none)
  else
    (reportAll (scanMethods m.serviceName m.kebab st m.methods).1
      ((duplicateGroups (fun i => i.methodName)
          (scanMethods m.serviceName m.kebab st m.methods).2).map (dupMethodDiag m.serviceName)),
     some (m.serviceName, (scanMethods m.serviceName m.kebab st m.methods).2))

def runModules : BuildState → List ServiceModuleDecl → BuildState × List (String × List MethodInfo)
  | st, [] => (st, [])
  | st, m :: ms =>
    match runModule st m with
    | (st2, none) => runModules st2 ms
    | (st2, some g) =>
      let r := runModules st2 ms
      (r.1, g :: r.2)

/-- The duplicate-service-basename check (lines 369-384). -/
def serviceDupDiags (mods : List ServiceModuleDecl) : List Diagnostic :=
  (duplicateGroups (fun m => basenameOf m.modulePath) mods).map
    (fun g => .duplicateServiceNames (g.map (fun m => m.modulePath)))

/-- The whole generator run: the module loop, then the service-name
uniqueness check; the collected groups feed the pattern map. -/
def runAll (mods : List ServiceModuleDecl) :
    BuildState × List (String × List MethodInfo) :=
  let r := runModules ⟨[], false⟩ mods
  (reportAll r.1 (serviceDupDiags mods), r.2)

/-- The process exit contract (lines 477-486): exit 1 when `errorFlag`
was set, else the process ends normally with exit 0. -/
def exitCode (mods : List ServiceModuleDecl) : Nat :=
  if (runAll mods).1.errorFlag then 1 else 0

/-! ## The generated routing-key map (lines 422-438)

The generated artifact is the object literal
`export const patternMap = { service: { clientMethodName: [(pattern), hasPayload] } }`.
`JsVal` models the runtime values involved: `pair` is the generated
two-element array `[(pattern), boolean]` (the only iterable below),
`obj` is a plain object literal, and `undefinedVal` is `undefined`. -/

inductive JsVal where
  | undefinedVal
  | obj (fields : List (String × JsVal))
  | pair (pat : String) (hasPayload : Bool)

/-- The client-facing method name used as the key of a map entry
(lines 428-432): `emit` plus the capitalized event name for event
handlers, the handler method name otherwise. -/
def clientMethodName (i : MethodInfo) : String :=
  if i.isEventHandler then "emit" ++ capitalizeStr (i.eventName.getD "") else i.methodName

/-- One generated map entry `clientMethodName: [(pattern), paramIndex != -1]`. -/
def patternEntry (i : MethodInfo) : String × JsVal :=
  (clientMethodName i, .pair i.pattern (i.paramIndex != -1))

/-- The generated global map: service key `R.uncapitalize(serviceName)`,
value the object of that service's entries. -/
def patternMapOf (groups : List (String × List MethodInfo)) : JsVal :=
  .obj (groups.map (fun g => (uncapitalizeStr g.1, JsVal.obj (g.2.map patternEntry))))

/-! ## The runtime client proxy (src/client.service.ts) -/

/-- Default per-call timeout (line 16). -/
def SERVICE_TIMEOUT : Nat := 5000

/-- The `timeout(2000)` bound on each connect attempt (line 83). -/
def connectTimeoutMs : Nat := 2000

/-- The `count` of `retry({ count: 5, delay: 3000 })` (line 85). -/
def connectRetryCount : Nat := 5

/-- The `delay` of `retry({ count: 5, delay: 3000 })` (line 85). -/
def connectRetryDelayMs : Nat := 3000

/-- JavaScript property access on the values above; `obj` fields are
looked up, every other value has no properties. -/
def jsGet (v : JsVal) (key : String) : Option JsVal :=
  match v with
  | .obj fs => fs.lookup key
  | _ => none

inductive JsError where
  | notIterable
deriving DecidableEq, Repr

/-- Two-element array destructuring `const [a, b] = v`: a generated
`[(pattern), hasPayload]` array is iterable and yields its members;
destructuring a plain object or `undefined` throws a `TypeError`. -/
def destructurePair : JsVal → Except JsError (String × Bool)
  | .pair p b => .ok (p, b)
  | _ => .error .notIterable

/-- Line 105 of client.service.ts as written:
`const [pattern, hasPayload] = patternMap[serviceName];` — the value
indexed by the service name alone is destructured; the accessed method
name plays no part. -/
def runtimeMethodBinding (patternMap : JsVal) (serviceName _methodName : String) :
    Except JsError (String × Bool) :=
  match jsGet patternMap serviceName with
  | some v => destructurePair v
  | none => destructurePair .undefinedVal

/-- Modelled from the spec (sections 3 and 4.5): the binding the
RoutingKeyMap records for a method, obtained by indexing the map by
service name and then by client method name.  Stated here only to be
compared with `runtimeMethodBinding` above. -/
def specMethodBinding (patternMap : JsVal) (serviceName methodName : String) :
    Option (String × Bool) :=
  match jsGet patternMap serviceName with
  | some inner =>
    match jsGet inner methodName with
    | some (.pair p b) => some (p, b)
    | _ => none
  | none => none

/-- `methodName.startsWith("emit")` (line 106). -/
def isEmitMethod (methodName : String) : Bool :=
  strStartsWith methodName ("emit")

/-- `isEmitMethod || methodName.endsWith("$")` (line 107). -/
def isObservable (methodName : String) : Bool :=
  isEmitMethod methodName || strEndsWith methodName ("$")

/-- `const payload = hasPayload ? arg1 : {}` (line 111). -/
def callPayload (hasPayload : Bool) (arg1 : JsVal) : JsVal :=
  if hasPayload then arg1 else .obj []

/-- `const options = hasPayload ? arg2 : arg1` (line 112). -/
def callOptions (hasPayload : Bool) (arg1 arg2 : JsVal) : JsVal :=
  if hasPayload then arg2 else arg1

inductive RxError where
  | emptyError
  | timedOut
deriving DecidableEq, Repr

instance {ε α : Type} [DecidableEq ε] [DecidableEq α] : DecidableEq (Except ε α) := fun x y =>
  match x, y with
  | .ok a, .ok b => if h : a = b then isTrue (by rw [h]) else isFalse (by simp [h])
  | .error a, .error b => if h : a = b then isTrue (by rw [h]) else isFalse (by simp [h])
  | .ok _, .error _ => isFalse (by simp)
  | .error _, .ok _ => isFalse (by simp)

/-- `lastValueFrom`: the promise resolves with the LAST emission of the
stream and rejects with `EmptyError` when the stream completes without
emitting. -/
def lastValueFrom {V : Type} (emissions : List V) : Except RxError V :=
  match emissions.getLast? with
  | some v => .ok v
  | none => .error .emptyError

/-- What a proxy call hands back to the caller: the piped observable
itself, or the promise `lastValueFrom` makes of it. -/
inductive CallResult (V : Type) where
  | stream (emissions : List V)
  | promise (result : Except RxError V)
deriving DecidableEq, Repr

/-- `return isObservable ? ob$ : lastValueFrom(ob$)` (line 118), with
`emissions` the emissions of the underlying `send`/`emit` stream after a
successful connect (the `first()` of line 115 applies to the connection
observable, so `ob$` forwards every emission of the inner stream). -/
def dispatchResult {V : Type} (methodName : String) (emissions : List V) : CallResult V :=
  if isObservable methodName then .stream emissions else .promise (lastValueFrom emissions)

/-! ## Connection supervision (lines 70-97) -/

/-- Outcome of one raw `client.connect()` attempt: it resolves, rejects
with a transport error, or exceeds `connectTimeoutMs` so that
`timeout(2000)` fires. -/
inductive TransportOutcome (E : Type) where
  | succeeds
  | failsWith (e : E)
  | hangs
deriving DecidableEq, Repr

inductive ConnectError (E : Type) where
  | timedOut
  | transport (e : E)
deriving DecidableEq, Repr

/-- One attempt of `defer(() => client.connect()).pipe(timeout(2000))`. -/
def attemptResult {E : Type} (o : TransportOutcome E) : Except (ConnectError E) Unit :=
  match o with
  | .succeeds => .ok ()
  | .failsWith e => .error (.transport e)
  | .hangs => .error .timedOut

/-- `retry({ count, delay })` over a deferred attempt: on success stop;
on failure, while retries remain, wait `connectRetryDelayMs` and
resubscribe (the next attempt index); when retries are exhausted the last
error propagates.  Returns the result together with the number of
subscriptions (connect attempts) made. -/
def runRetry {E : Type} (attempt : Nat → Except E Unit) :
    Nat → Nat → Except E Unit × Nat
  | 0, i =>
    match attempt i with
    | .ok _ => (.ok (), 1)
    | .error e => (.error e, 1)
  | r + 1, i =>
    match attempt i with
    | .ok _ => (.ok (), 1)
    | .error _ =>
      let rec_ := runRetry attempt r (i + 1)
      (rec_.1, rec_.2 + 1)

/-- The first-call connection pipeline `connection$` (lines 81-96):
retry budget `connectRetryCount`, attempts numbered from 0. -/
def runConnect {E : Type} (transport : Nat → TransportOutcome E) :
    Except (ConnectError E) Unit × Nat :=
  runRetry (fun i => attemptResult (transport i)) connectRetryCount 0

/-- Which observable `connect()` returns (lines 70-97): the status-feed
check when `firstCall` is already false, else the fresh connection
pipeline; `firstCall` is false afterwards in both cases. -/
inductive ConnectPath where
  | freshConnect
  | statusCheck
deriving DecidableEq, Repr

def connectStep (firstCall : Bool) : ConnectPath × Bool :=
  if firstCall then (.freshConnect, false) else (.statusCheck, false)

/-- The connect paths taken by a sequence of `n` proxy calls, starting
from the constructor state `firstCall = true` (line 68). -/
def callPathsFrom : Bool → Nat → List ConnectPath
  | _, 0 => []
  | fc, n + 1 =>
    let s := connectStep fc
    s.1 :: callPathsFrom s.2 n

def callPaths (n : Nat) : List ConnectPath :=
  callPathsFrom true n

/-- The status-feed check of lines 72-78: the observed status value is
passed through, and a status other than `connected` throws. -/
def statusCheckResult (serviceName status : String) : Except String Unit :=
  if status ≠ "connected" then .error ("Client not connected to " ++ serviceName)
  else .ok ()

/-! ## Concrete instances used in the theorems below -/

/-- An event handler carrying `@EventPattern("users.created")` inside the
`users` service. -/
def usersCreatedHandler : MethodDecl := {
  className := "UsersController"
  methodName := "onUserCreated"
  loc := "apps/users/src/users.controller.ts:12:3"
  hasPatternDecorator := true
  isEventHandler := true
  patternArg := {
    isInline := true
    text := "\"users.created\""
    inlineValue := some (.str "users.created")
    ty := .lit (.str "users.created") }
  paramDecorated := [false] }

/-- The record extracted from `usersCreatedHandler` in service `users`. -/
def usersCreatedInfo : MethodInfo := {
  className := "UsersController"
  methodName := "onUserCreated"
  loc := "apps/users/src/users.controller.ts:12:3"
  pattern := "\"users.created\""
  paramIndex := 0
  serviceName := "Users"
  isEventHandler := true
  eventName := some ("created") }

/-- A message handler (`@MessagePattern`) whose name starts with the
reserved `emit`. -/
def emitFooDecl : MethodDecl := {
  className := "UsersController"
  methodName := "emitFoo"
  loc := "apps/users/src/users.controller.ts:20:3"
  hasPatternDecorator := true
  isEventHandler := false
  patternArg := {
    isInline := true
    text := "\"foo\""
    inlineValue := some (.str "foo")
    ty := .lit (.str "foo") }
  paramDecorated := [] }

/-- A message-handler record for service `users`: method `getUser`,
routing key `"getUser"`, one payload parameter. -/
def usersGetUserInfo : MethodInfo := {
  className := "UsersController"
  methodName := "getUser"
  loc := "apps/users/src/users.controller.ts:8:3"
  pattern := "\"getUser\""
  paramIndex := 0
  serviceName := "Users"
  isEventHandler := false
  eventName := none }

/-- The generated map for a workspace with the single service `users`
holding the single handler `getUser`. -/
def examplePatternMap : JsVal :=
  patternMapOf [("Users", [usersGetUserInfo])]

/-- A service module with no handler methods at all. -/
def emptyUsersModule : ServiceModuleDecl := {
  modulePath := "apps/users/src/users.module.ts"
  serviceName := "Users"
  kebab := "users"
  methods := [] }

/-! ## Supporting lemmas -/

theorem valueFromTypeList_lits (vs : List Value) :
    valueFromTypeList (vs.map Ty.lit) = .ok vs := by
  induction vs with
  | nil => rfl
  | cons v vs ih => simp [valueFromTypeList, valueFromType, ih]

theorem runRetry_alwaysFails {E : Type} (err : Nat → E) (attempt : Nat → Except E Unit)
    (h : ∀ i, attempt i = .error (err i)) :
    ∀ remaining i, runRetry attempt remaining i = (.error (err (i + remaining)), remaining + 1) := by
  intro remaining
  induction remaining with
  | zero => intro i; simp [runRetry, h i]
  | succ r ih =>
    intro i
    have hi : i + 1 + r = i + (r + 1) := by omega
    simp [runRetry, h i, ih (i + 1), hi]

theorem callPathsFrom_false : ∀ n, callPathsFrom false n = List.replicate n ConnectPath.statusCheck := by
  intro n
  induction n with
  | zero => rfl
  | succ n ih => simp [callPathsFrom, connectStep, ih, List.replicate]

theorem callPaths_succ (n : Nat) :
    callPaths (n + 1) = ConnectPath.freshConnect :: List.replicate n ConnectPath.statusCheck := by
  simp [callPaths, callPathsFrom, connectStep, callPathsFrom_false]

/-! ## Claim theorems -/

/-- C1: the claim reads the runtime binding as
`patternMap[serviceName][methodName]`.  The generator does emit the
nested map recording `(routing key, hasPayload)` under service name and
then client method name, but line 105 of client.service.ts destructures
`patternMap[serviceName]` itself as `[pattern, hasPayload]` and never
indexes by the accessed method name: on the generated map (a plain
object) this destructuring is a `TypeError`, so no binding is ever
obtained from the per-method entry. -/
theorem bindingLookupIgnoresMethodName :
    examplePatternMap =
      .obj [("users", .obj [("getUser", .pair ("\"getUser\"") true)])] ∧
    runtimeMethodBinding examplePatternMap ("users") ("getUser") = .error .notIterable ∧
    specMethodBinding examplePatternMap ("users") ("getUser") = some ("\"getUser\"", true) ∧
    (∀ (pm : JsVal) (svc m1 m2 : String),
      runtimeMethodBinding pm svc m1 = runtimeMethodBinding pm svc m2) :=
  ⟨rfl, rfl, rfl, fun _ _ _ _ => rfl⟩

/-- C2 as stated is false: a call on a method named without the `$`
marker and the `emit` prefix resolves to the LAST emission of the
underlying stream (`lastValueFrom`), not the first; on the stream
emitting 1 then 2 the code returns 2 while the claim demands the first
emission 1. -/
theorem singleDispatchNotFirstEmission :
    List.head? [(1 : Nat), 2] = some 1 ∧
    dispatchResult ("getFoo") [(1 : Nat), 2] = .promise (.ok 2) ∧
    dispatchResult ("getFoo") [(1 : Nat), 2] ≠ .promise (.ok 1) := by
  exact ⟨rfl, rfl, by decide⟩

/-- C2 amended: a client method name ending in `$` or starting with
`emit` yields the multi-value stream; every other method yields a single
deferred value equal to the last emission of the underlying request
stream (a rejected result when the stream is empty). -/
theorem dispatchShape {V : Type} (methodName : String) (emissions : List V) :
    ((strEndsWith methodName ("$") || strStartsWith methodName ("emit")) = true →
      dispatchResult methodName emissions = .stream emissions) ∧
    ((strEndsWith methodName ("$") || strStartsWith methodName ("emit")) = false →
      dispatchResult methodName emissions = .promise (lastValueFrom emissions)) := by
  cases he : strEndsWith methodName ("$") <;> cases hs : strStartsWith methodName ("emit") <;>
    simp [dispatchResult, isObservable, isEmitMethod, he, hs]

theorem dispatchShape_witness :
    dispatchResult ("foo$") [(3 : Nat), 4] = .stream [3, 4] ∧
    dispatchResult ("getBar") [(3 : Nat), 4] = .promise (lastValueFrom [3, 4]) :=
  ⟨(dispatchShape ("foo$") [(3 : Nat), 4]).1 (by decide),
   (dispatchShape ("getBar") [(3 : Nat), 4]).2 (by decide)⟩

/-- C3: with a transport whose connect always fails, the first-call
connection pipeline makes the initial attempt plus exactly
`connectRetryCount = 5` retries (six subscriptions in total, no sixth
retry), and the surfaced rejection is the underlying failure of the last
attempt.  Each attempt is bounded by `connectTimeoutMs = 2000` and the
retry delay is `connectRetryDelayMs = 3000`. -/
theorem connectRetryBudget {E : Type} (err : Nat → E) (transport : Nat → TransportOutcome E)
    (h : ∀ i, transport i = .failsWith (err i)) :
    runConnect transport = (.error (.transport (err connectRetryCount)), connectRetryCount + 1) ∧
    connectRetryCount = 5 ∧ connectTimeoutMs = 2000 ∧ connectRetryDelayMs = 3000 := by
  refine ⟨?_, rfl, rfl, rfl⟩
  have hh : ∀ i, attemptResult (transport i) = .error (ConnectError.transport (err i)) := by
    intro i; rw [h i]; rfl
  have hr := runRetry_alwaysFails (fun i => ConnectError.transport (err i))
    (fun i => attemptResult (transport i)) hh connectRetryCount 0
  simpa [runConnect] using hr

theorem connectRetryBudget_witness :
    runConnect (fun i => TransportOutcome.failsWith i) =
      (.error (.transport (5 : Nat)), 6) :=
  (connectRetryBudget (fun i => i) (fun i => .failsWith i) (fun _ => rfl)).1

/-- C4: a routing-key expression that is not an inline literal but whose
static type is a fixed-length tuple of literal types resolves to the
element-wise collapse of the tuple members, and a literal (singleton)
type resolves to its single inhabitant; in particular a type fixed to
`["orders", 1]` resolves to `["orders", 1]`, and the non-inline pattern
path serializes it to `["orders",1]`. -/
theorem resolverTupleCollapse (vs : List Value) :
    valueFromType (Ty.fixedTuple (vs.map Ty.lit)) = .ok (Value.arr vs) ∧
    (∀ v, valueFromType (Ty.lit v) = .ok v) ∧
    valueFromType (Ty.fixedTuple [Ty.lit (.str "orders"), Ty.lit (.num 1)]) =
      .ok (Value.arr [.str "orders", .num 1]) ∧
    (∀ (t : String) (iv : Option Value),
      resolvedPattern ⟨false, t, iv, Ty.fixedTuple [Ty.lit (.str "orders"), Ty.lit (.num 1)]⟩ =
        some ("[\"orders\",1]", Value.arr [.str "orders", .num 1])) := by
  refine ⟨?_, fun v => rfl, rfl, fun t iv => rfl⟩
  simp [valueFromType, valueFromTypeList_lits]

/-- C5: the `users.created` routing key is accepted for the service whose
kebab-case name is `users` (yielding the client method `emitCreated`)
and rejected with a shape diagnostic, producing no record, for the
service `accounts`. -/
theorem eventPatternScopedToService :
    processMethod ("Users") ("users") usersCreatedHandler = .ok (some usersCreatedInfo) ∧
    clientMethodName usersCreatedInfo = "emitCreated" ∧
    processMethod ("Accounts") ("accounts") usersCreatedHandler =
      .error (.eventPatternShape ("\"users.created\"") usersCreatedHandler.loc) :=
  ⟨rfl, rfl, rfl⟩

/-- C7: a bound call whose captured `hasPayload` is true sends the first
argument as payload and reads options from the second; with `hasPayload`
false the lone argument is the options object and the empty object `{}`
is sent as payload. -/
theorem payloadOptionDisambiguation (arg1 arg2 : JsVal) :
    callPayload true arg1 = arg1 ∧ callOptions true arg1 arg2 = arg2 ∧
    callPayload false arg1 = .obj [] ∧ callOptions false arg1 arg2 = arg1 :=
  ⟨rfl, rfl, rfl, rfl⟩

/-- C8: from the second call on, the proxy takes the status-feed path
(no new transport connect), and that path fails exactly when the
observed status is not `connected`. -/
theorem laterCallsObserveStatus (n i : Nat) (h1 : 1 ≤ i) (h2 : i < n) :
    (callPaths n)[i]? = some ConnectPath.statusCheck ∧
    (∀ serviceName status,
      statusCheckResult serviceName status = .ok () ↔ status = "connected") := by
  constructor
  · match n, h2 with
    | n + 1, _ =>
      rw [callPaths_succ]
      match i, h1 with
      | j + 1, _ =>
        rw [List.getElem?_cons_succ, List.getElem?_replicate, if_pos (by omega)]
  · intro serviceName status
    by_cases h : status = "connected" <;> simp [statusCheckResult, h]

theorem laterCallsObserveStatus_witness :
    (callPaths 3)[1]? = some ConnectPath.statusCheck ∧
    (∀ serviceName status,
      statusCheckResult serviceName status = .ok () ↔ status = "connected") :=
  laterCallsObserveStatus 3 1 (by decide) (by decide)

/-- C9: a message handler whose name starts with the reserved `emit`
prefix is rejected with exactly one diagnostic and contributes no
record; the scan continues with the remaining methods from the updated
state. -/
theorem reservedEmitNameRejected (serviceName kebab : String) (m : MethodDecl)
    (h1 : m.hasPatternDecorator = true) (h2 : m.isEventHandler = false)
    (h3 : strStartsWith m.methodName ("emit") = true)
    (st : BuildState) (rest : List MethodDecl) :
    processMethod serviceName kebab m = .error (.reservedEmitName m.methodName m.loc) ∧
    scanMethods serviceName kebab st (m :: rest) =
      scanMethods serviceName kebab
        ⟨st.diags ++ [.reservedEmitName m.methodName m.loc], true⟩ rest := by
  have hp : processMethod serviceName kebab m = .error (.reservedEmitName m.methodName m.loc) := by
    simp [processMethod, h1, h2, h3]
  exact ⟨hp, by simp [scanMethods, hp, report]⟩

theorem reservedEmitNameRejected_witness :
    processMethod ("Users") ("users") emitFooDecl =
      .error (.reservedEmitName ("emitFoo") ("apps/users/src/users.controller.ts:20:3")) ∧
    scanMethods ("Users") ("users") ⟨[], false⟩ [emitFooDecl] =
      scanMethods ("Users") ("users")
        ⟨[.reservedEmitName ("emitFoo") ("apps/users/src/users.controller.ts:20:3")], true⟩ [] :=
  reservedEmitNameRejected ("Users") ("users") emitFooDecl rfl rfl rfl ⟨[], false⟩ []

/-- C10: a generated map entry records `hasPayload = (paramIndex != -1)`;
`paramIndex` is different from `-1` exactly when the handler declares at
least one parameter, and equals the Payload/Body-decorated parameter
index when one exists, else 0. -/
theorem hasPayloadIffParamIndex (info : MethodInfo) (ps : List Bool) :
    ((patternEntry info).2 = JsVal.pair info.pattern true ↔ info.paramIndex ≠ -1) ∧
    (paramIndexOf ps ≠ -1 ↔ ps ≠ []) ∧
    (∀ i, ps.findIdx? (fun b => b) = some i → paramIndexOf ps = (i : Int)) ∧
    (ps.findIdx? (fun b => b) = none → ps ≠ [] → paramIndexOf ps = 0) := by
  refine ⟨?_, ?_, ?_, ?_⟩
  · simp [patternEntry, bne_iff_ne]
  · cases ps with
    | nil => simp [paramIndexOf, findDecoratedIndex]
    | cons b bs =>
      by_cases h : findDecoratedIndex (b :: bs) = -1
      · simp [paramIndexOf, h]
      · simp [paramIndexOf, h]
  · intro i h
    have hne : ¬((i : Int) = -1) := by omega
    simp [paramIndexOf, findDecoratedIndex, h, hne]
  · intro h hne
    simp [paramIndexOf, findDecoratedIndex, h, List.length_pos.mpr hne]

theorem hasPayloadIffParamIndex_witness :
    paramIndexOf [false, true] = 1 ∧
    (paramIndexOf [false, true] ≠ -1 ↔ ([false, true] : List Bool) ≠ []) :=
  ⟨(hasPayloadIffParamIndex usersGetUserInfo [false, true]).2.2.1 1 (by decide),
   (hasPayloadIffParamIndex usersGetUserInfo [false, true]).2.1⟩

/-! ## Exit-code bookkeeping for C6

`errorFlag` is set exactly at the `console.error` sites, so it is true
precisely when at least one diagnostic has been printed; the scan keeps
going past failures, so the surviving records are independent of the
accumulated error state. -/

theorem isEmpty_append {α : Type} (l1 l2 : List α) :
    (l1 ++ l2).isEmpty = (l1.isEmpty && l2.isEmpty) := by
  cases l1 <;> simp

theorem report_flag (st : BuildState) (d : Diagnostic) :
    (report st d).errorFlag = !(report st d).diags.isEmpty := by
  simp [report, isEmpty_append]

theorem reportAll_flag (ds : List Diagnostic) :
    ∀ st : BuildState, st.errorFlag = !st.diags.isEmpty →
      (reportAll st ds).errorFlag = !(reportAll st ds).diags.isEmpty := by
  induction ds with
  | nil => intro st h; exact h
  | cons d ds ih => intro st _; exact ih (report st d) (report_flag st d)

theorem scanMethods_flagInv (svc kebab : String) (ms : List MethodDecl) :
    ∀ st : BuildState, st.errorFlag = !st.diags.isEmpty →
      (scanMethods svc kebab st ms).1.errorFlag =
        !(scanMethods svc kebab st ms).1.diags.isEmpty := by
  induction ms with
  | nil => intro st h; exact h
  | cons m ms ih =>
    intro st h
    cases hp : processMethod svc kebab m with
    | ok o =>
      cases o with
      | none => simpa [scanMethods, hp] using ih st h
      | some info => simpa [scanMethods, hp] using ih st h
    | error d => simpa [scanMethods, hp] using ih (report st d) (report_flag st d)

theorem runModule_flagInv (m : ServiceModuleDecl) (st : BuildState)
    (h : st.errorFlag = !st.diags.isEmpty) :
    (runModule st m).1.errorFlag = !(runModule st m).1.diags.isEmpty := by
  have hs := scanMethods_flagInv m.serviceName m.kebab m.methods st h
  unfold runModule
  by_cases hI : (scanMethods m.serviceName m.kebab st m.methods).2.isEmpty = true
  · simpa [hI] using hs
  · simpa [hI] using reportAll_flag _ _ hs

theorem runModules_flagInv (ms : List ServiceModuleDecl) :
    ∀ st : BuildState, st.errorFlag = !st.diags.isEmpty →
      (runModules st ms).1.errorFlag = !(runModules st ms).1.diags.isEmpty := by
  induction ms with
  | nil => intro st h; exact h
  | cons m ms ih =>
    intro st h
    have hm := runModule_flagInv m st h
    rcases hr : runModule st m with ⟨st2, g⟩
    rw [hr] at hm
    cases g with
    | none => simpa [runModules, hr] using ih st2 hm
    | some gg => simpa [runModules, hr] using ih st2 hm

theorem runAll_flagInv (mods : List ServiceModuleDecl) :
    (runAll mods).1.errorFlag = !(runAll mods).1.diags.isEmpty := by
  have h := runModules_flagInv mods ⟨[], false⟩ rfl
  simpa [runAll] using reportAll_flag (serviceDupDiags mods) _ h

theorem scanMethods_snd (svc kebab : String) (ms : List MethodDecl) :
    ∀ st, (scanMethods svc kebab st ms).2 = (scanMethods svc kebab ⟨[], false⟩ ms).2 := by
  induction ms with
  | nil => intro st; rfl
  | cons m ms ih =>
    intro st
    cases hp : processMethod svc kebab m with
    | ok o =>
      cases o with
      | none => simp only [scanMethods, hp]; rw [ih st]
      | some info => simp only [scanMethods, hp]; rw [ih st]
    | error d =>
      simp only [scanMethods, hp]
      rw [ih (report st d), ih (report ⟨[], false⟩ d)]

theorem runModule_snd (m : ServiceModuleDecl) (st : BuildState) :
    (runModule st m).2 = (runModule ⟨[], false⟩ m).2 := by
  unfold runModule
  rw [scanMethods_snd m.serviceName m.kebab m.methods st]
  by_cases hI : (scanMethods m.serviceName m.kebab ⟨[], false⟩ m.methods).2.isEmpty = true <;>
    simp [hI]

theorem runModules_groups (ms : List ServiceModuleDecl) :
    ∀ st, (runModules st ms).2 = ms.filterMap (fun m => (runModule ⟨[], false⟩ m).2) := by
  induction ms with
  | nil => intro st; rfl
  | cons m ms ih =>
    intro st
    have hb : runModule st m = ((runModule st m).1, (runModule ⟨[], false⟩ m).2) := by
      rw [← runModule_snd m st]
    cases hg : (runModule ⟨[], false⟩ m).2 with
    | none =>
      rw [hg] at hb
      rw [runModules, hb]
      show (runModules (runModule st m).1 ms).2 = _
      rw [ih, List.filterMap_cons, hg]
    | some gg =>
      rw [hg] at hb
      rw [runModules, hb]
      show (gg :: (runModules (runModule st m).1 ms).2 : List _) = _
      rw [ih, List.filterMap_cons, hg]

theorem scanMethods_noDecorators (svc kebab : String) (ms : List MethodDecl)
    (h : ∀ d ∈ ms, d.hasPatternDecorator = false) :
    ∀ st, scanMethods svc kebab st ms = (st, []) := by
  induction ms with
  | nil => intro st; rfl
  | cons m ms ih =>
    intro st
    have hm : processMethod svc kebab m = .ok none := by
      simp [processMethod, h m (List.mem_cons_self m ms)]
    simp only [scanMethods, hm]
    exact ih (fun d hd => h d (List.mem_cons_of_mem m hd)) st

theorem runModules_noHandlers (ms : List ServiceModuleDecl)
    (h : ∀ m ∈ ms, ∀ d ∈ m.methods, d.hasPatternDecorator = false) :
    ∀ st, runModules st ms = (st, []) := by
  induction ms with
  | nil => intro st; rfl
  | cons m ms ih =>
    intro st
    have hscan := scanMethods_noDecorators m.serviceName m.kebab m.methods
      (h m (List.mem_cons_self m ms)) st
    have hm : runModule st m = (st, none) := by simp [runModule, hscan]
    simp only [runModules, hm]
    exact ih (fun x hx => h x (List.mem_cons_of_mem m hx)) st

theorem groupByKey_nodup {α : Type} (key : α → String) :
    ∀ (n : Nat) (xs : List α), xs.length ≤ n → (xs.map key).Nodup →
      ∀ g ∈ groupByKey key xs, g.2.length = 1 := by
  intro n
  induction n with
  | zero =>
    intro xs hlen _ g hg
    match xs, hlen with
    | [], _ => simp [groupByKey] at hg
  | succ n ih =>
    intro xs hlen hnd g hg
    match xs with
    | [] => simp [groupByKey] at hg
    | x :: xs =>
      simp only [groupByKey] at hg
      rcases List.mem_cons.mp hg with hg | hg
      · have hx : key x ∉ xs.map key := by
          simp only [List.map_cons, List.nodup_cons] at hnd
          exact hnd.1
        have hf : xs.filter (fun y => key y = key x) = [] := by
          rw [List.filter_eq_nil_iff]
          intro a ha hka
          exact hx (by
            have : key a = key x := by simpa using hka
            rw [← this]
            exact List.mem_map_of_mem key ha)
        rw [hg]
        simp [hf]
      · have hsub : ((xs.filter (fun y => key y ≠ key x)).map key).Nodup := by
          have hnd2 : (xs.map key).Nodup := by
            simp only [List.map_cons, List.nodup_cons] at hnd
            exact hnd.2
          exact List.Nodup.sublist (List.Sublist.map key (List.filter_sublist _)) hnd2
        have hlen2 : (xs.filter (fun y => key y ≠ key x)).length ≤ n := by
          have := List.length_filter_le (fun y => key y ≠ key x) xs
          simp only [List.length_cons] at hlen
          omega
        exact ih (xs.filter (fun y => key y ≠ key x)) hlen2 hsub g hg

theorem duplicateGroups_nil {α : Type} (key : α → String) (xs : List α)
    (h : (xs.map key).Nodup) : duplicateGroups key xs = [] := by
  unfold duplicateGroups
  rw [List.filter_eq_nil_iff]
  intro g hg
  rcases List.mem_map.mp hg with ⟨p, hp, rfl⟩
  have h1 := groupByKey_nodup key xs.length xs le_rfl h p hp
  simp [h1]

/-- C6: the generator exits 0 exactly when no diagnostic was raised; the
surviving per-service record groups cover every module independently of
the error state (the scan is batched, never fail-fast); and a run whose
modules carry no annotated handler, with distinct module basenames,
raises nothing and exits 0. -/
theorem exitCodeZeroIffNoDiagnostics (mods : List ServiceModuleDecl) :
    (exitCode mods = 0 ↔ (runAll mods).1.diags = []) ∧
    ((runAll mods).2 = mods.filterMap (fun m => (runModule ⟨[], false⟩ m).2)) ∧
    ((∀ m ∈ mods, ∀ d ∈ m.methods, d.hasPatternDecorator = false) →
      (mods.map (fun m => basenameOf m.modulePath)).Nodup →
      exitCode mods = 0) := by
  refine ⟨?_, ?_, ?_⟩
  · have hinv := runAll_flagInv mods
    unfold exitCode
    rw [hinv]
    cases hD : (runAll mods).1.diags <;> simp [hD]
  · simp [runAll, runModules_groups]
  · intro hnh hnd
    have h1 := runModules_noHandlers mods hnh ⟨[], false⟩
    have h2 : serviceDupDiags mods = [] := by
      unfold serviceDupDiags
      rw [duplicateGroups_nil _ _ hnd]
      rfl
    simp [exitCode, runAll, h1, h2, reportAll]

theorem exitCodeZeroIffNoDiagnostics_witness :
    exitCode [emptyUsersModule] = 0 :=
  (exitCodeZeroIffNoDiagnostics [emptyUsersModule]).2.2
    (by intro m hm d hd; simp [emptyUsersModule] at hm; rw [hm] at hd; simp at hd)
    (by decide)

end ClientGen
